import Mathlib

/-!
Verification of the react-bidirectional-list core against its design
specification.

The embedding covers:
* `useThrottle` (src/hooks/useThrottle.ts): the cooldown gate over a
  monotone millisecond clock, with `lastCallRef` initialised to `0`;
* the `BidirectionalList` controller (src/components/BidirectionalList.tsx):
  the memoised `direction` prop and the change warning, `saveScrollStates`,
  the settlement layout effect with its four-way `switch (directionMemo)`,
  and the throttled head/tail observer callbacks.

Numbers (timestamps, scroll extents and offsets) are modelled as `Int`;
the DOM viewport is an explicit record, absent (`Option`) when the
component is torn down.  Effects that the component performs on the
outside world (callback invocations, console output, scroll writes) are
returned explicitly so that "no write" is distinguishable from "wrote the
old value".
-/

namespace BList

/-- Character-list helper for the JavaScript `String.prototype.includes`
test used by `directionMemo.includes('column')`: does the second list
start with the first? -/
def leadsWith : List Char → List Char → Bool
  | [], _ => true
  | _ :: _, [] => false
  | p :: ps, c :: cs => p == c && leadsWith ps cs

/-- Does `pat` occur as a contiguous run inside the list? -/
def listIncludes (pat : List Char) : List Char → Bool
  | [] => pat.isEmpty
  | c :: cs => leadsWith pat (c :: cs) || listIncludes pat cs

/-- JavaScript `s.includes(pat)` on strings. -/
def strIncludes (s pat : String) : Bool :=
  listIncludes pat.toList s.toList

/-- `const isColumn = directionMemo.includes('column')` from
BidirectionalList.tsx. -/
def isColumn (direction : String) : Bool :=
  strIncludes direction "column"

/-- The `Action` type of BidirectionalList.tsx: which end of the list
triggered. -/
inductive Action
  | head
  | tail
deriving DecidableEq, Repr

/-- The live viewport element: its scrollable extents and current scroll
offsets on both axes. -/
structure Viewport where
  scrollWidth : Int
  scrollHeight : Int
  scrollLeft : Int
  scrollTop : Int
deriving DecidableEq, Repr

/-- The controller's own state: the direction captured by
`useMemo(() => direction, [])`, the `disableLog` prop, the pending
`action` state, and the four scroll refs. -/
structure ListState where
  directionMemo : String
  disableLog : Bool
  action : Option Action
  scrollWidthRef : Int
  scrollHeightRef : Int
  scrollLeftRef : Int
  scrollTopRef : Int
deriving DecidableEq, Repr

/-- Controller state right after construction: refs are `useRef(0)` and
`action` starts `undefined`; `directionMemo` captures the construction-time
direction. -/
def initState (direction : String) (disableLog : Bool) : ListState :=
  ⟨direction, disableLog, none, 0, 0, 0, 0⟩

/-- `saveScrollStates` from BidirectionalList.tsx: if the viewport ref is
present, record extent and offset on the main axis chosen by `isColumn`
and set the pending action; otherwise do nothing. -/
def saveScrollStates (pending : Action) (viewport : Option Viewport)
    (s : ListState) : ListState :=
  match viewport with
  | none => s
  | some v =>
    if isColumn s.directionMemo then
      { s with scrollHeightRef := v.scrollHeight,
               scrollTopRef := v.scrollTop,
               action := some pending }
    else
      { s with scrollWidthRef := v.scrollWidth,
               scrollLeftRef := v.scrollLeft,
               action := some pending }

/-- A single scroll-offset assignment performed on the viewport:
`scrollLeft = v` or `scrollTop = v`. -/
inductive ScrollWrite
  | left (value : Int)
  | top (value : Int)
deriving DecidableEq, Repr

/-- Result of one run of the settlement layout effect: the updated
controller state, the scroll write performed (if any), and whether
`console.error` was emitted. -/
structure SettleResult where
  state : ListState
  write : Option ScrollWrite
  errorLogged : Bool
deriving DecidableEq, Repr

/-- Body of the settlement effect once the guard has passed: compute
`diff` on the main axis, run the `switch (directionMemo)`, then
`setAction(undefined)`.  The `default` case logs an internal error unless
`disableLog` and performs no scroll write. -/
def settleCore (v : Viewport) (a : Action) (s : ListState) : SettleResult :=
  let diff : Int :=
    if isColumn s.directionMemo then v.scrollHeight - s.scrollHeightRef
    else v.scrollWidth - s.scrollWidthRef
  if s.directionMemo = "row" then
    ⟨{ s with action := none },
     some (ScrollWrite.left
       (if a = Action.head then s.scrollLeftRef + diff else s.scrollLeftRef)),
     false⟩
  else if s.directionMemo = "row-reverse" then
    ⟨{ s with action := none },
     some (ScrollWrite.left
       (if a = Action.head then s.scrollLeftRef else s.scrollLeftRef + diff)),
     false⟩
  else if s.directionMemo = "column" then
    ⟨{ s with action := none },
     some (ScrollWrite.top
       (if a = Action.head then s.scrollTopRef + diff else s.scrollTopRef)),
     false⟩
  else if s.directionMemo = "column-reverse" then
    ⟨{ s with action := none },
     some (ScrollWrite.top
       (if a = Action.head then s.scrollTopRef else s.scrollTopRef + diff)),
     false⟩
  else
    ⟨{ s with action := none }, none, !s.disableLog⟩

/-- The settlement layout effect of BidirectionalList.tsx:
`if (!viewportRef.current || !action) return;` then `settleCore`. -/
def settle (viewport : Option Viewport) (s : ListState) : SettleResult :=
  match viewport with
  | none => ⟨s, none, false⟩
  | some v =>
    match s.action with
    | none => ⟨s, none, false⟩
    | some a => settleCore v a s

/-- Apply a recorded scroll write to a live viewport. -/
def applyWrite (v : Viewport) : Option ScrollWrite → Viewport
  | none => v
  | some (ScrollWrite.left x) => { v with scrollLeft := x }
  | some (ScrollWrite.top x) => { v with scrollTop := x }

/-- A render of the component with a (possibly new) `direction` prop: the
memoised value is kept unchanged, and the warning effect fires exactly
when the prop differs from the memo and logging is enabled. -/
def renderUpdate (direction : String) (s : ListState) : ListState × Bool :=
  (s, (direction != s.directionMemo) && !s.disableLog)

/-- JavaScript values as observed by a caller of the throttled wrapper:
`undefined` or a proper callback result. -/
inductive TSValue
  | undef
  | value (n : Int)
deriving DecidableEq, Repr

/-- Return value of the function produced by `useThrottle`, as seen by its
caller: if `now - lastCall >= delay` the callback result is returned,
otherwise the wrapper falls through and returns `undefined`. -/
def throttledReturn (delay now lastCall : Int) (callbackResult : TSValue) :
    TSValue :=
  if delay ≤ now - lastCall then callbackResult else TSValue.undef

/-- The `useThrottle` gate over a whole sequence of invocation attempts:
for each timestamp, `true` if the attempt is forwarded to the callback
(and `lastCallRef` is updated to it), `false` if it is dropped. -/
def runThrottle (delay lastCall : Int) : List Int → List Bool
  | [] => []
  | t :: ts =>
    if delay ≤ t - lastCall then true :: runThrottle delay t ts
    else false :: runThrottle delay lastCall ts

/-- The value of `lastCallRef` after a sequence of invocation attempts:
updated to `t` exactly when the attempt at `t` is forwarded. -/
def lastForwarded (delay lastCall : Int) : List Int → Int
  | [] => lastCall
  | t :: ts =>
    if delay ≤ t - lastCall then lastForwarded delay t ts
    else lastForwarded delay lastCall ts

/-- External events driving the controller: a head or tail observer
intersection (with the clock reading and the point-in-time HasMore flag),
or a settlement run of the layout effect. -/
inductive Event
  | headFire (now : Int) (hasMoreAtHead : Bool)
  | tailFire (now : Int) (hasMoreAtTail : Bool)
  | settleEvent
deriving DecidableEq, Repr

/-- Whole-component state: the controller state plus the two independent
`lastCallRef`s of the throttled head and tail callbacks. -/
structure Sys where
  ctrl : ListState
  lastHeadCall : Int
  lastTailCall : Int
deriving DecidableEq, Repr

/-- Observable effects of one event: whether the `onHead` / `onTail`
props were invoked, whether `console.error` fired, and the scroll write
performed (if any). -/
structure Output where
  headCallback : Bool
  tailCallback : Bool
  errorLogged : Bool
  write : Option ScrollWrite
deriving DecidableEq, Repr

/-- The silent outcome: no callback, no log, no scroll write. -/
def noOutput : Output := ⟨false, false, false, none⟩

/-- One event step of the component.  A fire event first runs the
`useThrottle` gate (updating `lastCallRef` whenever it passes, before the
inner callback runs); the inner callback returns early when the HasMore
flag is false, and otherwise calls `saveScrollStates` and then the
`onHead` / `onTail` prop.  A settlement event runs the layout effect. -/
def stepSys (delay : Int) (viewport : Option Viewport) (e : Event)
    (s : Sys) : Sys × Output :=
  match e with
  | Event.headFire now hasMoreAtHead =>
    if delay ≤ now - s.lastHeadCall then
      if hasMoreAtHead then
        (⟨saveScrollStates Action.head viewport s.ctrl, now, s.lastTailCall⟩,
         ⟨true, false, false, none⟩)
      else
        (⟨s.ctrl, now, s.lastTailCall⟩, noOutput)
    else (s, noOutput)
  | Event.tailFire now hasMoreAtTail =>
    if delay ≤ now - s.lastTailCall then
      if hasMoreAtTail then
        (⟨saveScrollStates Action.tail viewport s.ctrl, s.lastHeadCall, now⟩,
         ⟨false, true, false, none⟩)
      else
        (⟨s.ctrl, s.lastHeadCall, now⟩, noOutput)
    else (s, noOutput)
  | Event.settleEvent =>
    let r := settle viewport s.ctrl
    (⟨r.state, s.lastHeadCall, s.lastTailCall⟩,
     ⟨false, false, r.errorLogged, r.write⟩)

theorem isColumn_row : isColumn "row" = false := by decide

theorem settle_some_of_action (s : ListState) (v : Viewport) (a : Action)
    (hact : s.action = some a) : settle (some v) s = settleCore v a s := by
  simp [settle, hact]

theorem isColumn_row_reverse : isColumn "row-reverse" = false := by decide

theorem isColumn_column : isColumn "column" = true := by decide

theorem isColumn_column_reverse : isColumn "column-reverse" = true := by
  decide

/-- C1: when a mutation settles while an edge is pending, with extent
delta computed as extent after minus the recorded extent before on the
main axis of the orientation, the forward orientations (`row`, `column`)
write offsetBefore + delta for a pending head and offsetBefore for a
pending tail, and the reverse orientations (`row-reverse`,
`column-reverse`) invert the roles; the write is built from the recorded
metrics on the orientation's main axis. -/
theorem settlement_correction (s : ListState) (v : Viewport) (a : Action)
    (hact : s.action = some a) :
    (s.directionMemo = "row" →
      (settle (some v) s).write = some (ScrollWrite.left
        (s.scrollLeftRef +
          (if a = Action.head then v.scrollWidth - s.scrollWidthRef else 0))))
  ∧ (s.directionMemo = "row-reverse" →
      (settle (some v) s).write = some (ScrollWrite.left
        (s.scrollLeftRef +
          (if a = Action.tail then v.scrollWidth - s.scrollWidthRef else 0))))
  ∧ (s.directionMemo = "column" →
      (settle (some v) s).write = some (ScrollWrite.top
        (s.scrollTopRef +
          (if a = Action.head then v.scrollHeight - s.scrollHeightRef else 0))))
  ∧ (s.directionMemo = "column-reverse" →
      (settle (some v) s).write = some (ScrollWrite.top
        (s.scrollTopRef +
          (if a = Action.tail then v.scrollHeight - s.scrollHeightRef else 0)))) := by
  have hs := settle_some_of_action s v a hact
  refine ⟨?_, ?_, ?_, ?_⟩ <;> intro hdir <;> cases a <;>
    simp [hs, settleCore, hdir, isColumn_row, isColumn_row_reverse,
      isColumn_column, isColumn_column_reverse]

/-- Witness for C1 on the spec's end-to-end scenario 1: orientation
`row`, extentBefore 1000, offsetBefore 200, extentAfter 1400, pending
head: the settlement writes scrollLeft 600. -/
theorem settlement_correction_witness :
    (⟨"row", false, some Action.head, 1000, 0, 200, 0⟩ : ListState).action
        = some Action.head
  ∧ (settle (some ⟨1400, 300, 200, 0⟩)
        ⟨"row", false, some Action.head, 1000, 0, 200, 0⟩).write
      = some (ScrollWrite.left 600) := by
  refine ⟨rfl, ?_⟩
  have h := (settlement_correction
    ⟨"row", false, some Action.head, 1000, 0, 200, 0⟩
    ⟨1400, 300, 200, 0⟩ Action.head rfl).1 rfl
  simpa using h

/-- C3: running the settlement step with no pending edge leaves the
controller state untouched and performs no viewport write at all (the
write component is `none`, not a zero-delta write), and logs nothing. -/
theorem settle_no_pending_noop (viewport : Option Viewport) (s : ListState)
    (hact : s.action = none) :
    settle viewport s = ⟨s, none, false⟩ := by
  cases viewport with
  | none => rfl
  | some v => simp [settle, hact]

/-- Witness for C3: a concrete settlement with `action = none` returns the
state unchanged, no write and no log. -/
theorem settle_no_pending_noop_witness :
    (⟨"row", false, none, 1000, 0, 200, 0⟩ : ListState).action = none
  ∧ settle (some ⟨1400, 300, 250, 0⟩) ⟨"row", false, none, 1000, 0, 200, 0⟩
      = ⟨⟨"row", false, none, 1000, 0, 200, 0⟩, none, false⟩ :=
  ⟨rfl, settle_no_pending_noop (some ⟨1400, 300, 250, 0⟩)
    ⟨"row", false, none, 1000, 0, 200, 0⟩ rfl⟩

/-- C9: when an orientation outside the four recognized variants reaches
the settlement step while an edge is pending, the step performs no scroll
write (the correction is skipped), emits the internal-error diagnostic
exactly when `disableLog` is off, and still clears the pending edge; the
step is a total function, so no exception is raised. -/
theorem unrecognized_direction_settle (s : ListState) (v : Viewport)
    (a : Action) (hact : s.action = some a)
    (h1 : s.directionMemo ≠ "row") (h2 : s.directionMemo ≠ "row-reverse")
    (h3 : s.directionMemo ≠ "column")
    (h4 : s.directionMemo ≠ "column-reverse") :
    settle (some v) s = ⟨{ s with action := none }, none, !s.disableLog⟩ := by
  have hs := settle_some_of_action s v a hact
  simp [hs, settleCore, h1, h2, h3, h4]

/-- Witness for C9: direction `"diagonal"` with a pending head and logging
enabled: the settlement clears the pending edge, writes nothing, and logs
the internal error. -/
theorem unrecognized_direction_settle_witness :
    (⟨"diagonal", false, some Action.head, 1000, 0, 200, 0⟩
        : ListState).action = some Action.head
  ∧ settle (some ⟨1400, 300, 200, 0⟩)
        ⟨"diagonal", false, some Action.head, 1000, 0, 200, 0⟩
      = ⟨⟨"diagonal", false, none, 1000, 0, 200, 0⟩, none, true⟩ := by
  refine ⟨rfl, ?_⟩
  have h := unrecognized_direction_settle
    ⟨"diagonal", false, some Action.head, 1000, 0, 200, 0⟩
    ⟨1400, 300, 200, 0⟩ Action.head rfl
    (by decide) (by decide) (by decide) (by decide)
  simpa using h

theorem settleCore_clears (v : Viewport) (a : Action) (s : ListState) :
    (settleCore v a s).state = { s with action := none } := by
  unfold settleCore
  split_ifs <;> rfl

theorem saveScrollStates_action_some (p : Action) (v : Viewport)
    (s : ListState) :
    (saveScrollStates p (some v) s).action = some p := by
  unfold saveScrollStates
  split_ifs <;> rfl

/-- C4: the pending state is a single optional edge, every settlement that
runs with a live viewport leaves no pending edge, and a pending edge after
any event step is either carried over from before or was just recorded by
an edge-fire that passed the throttle gate with its HasMore flag true and
a live viewport. -/
theorem pending_at_most_one (delay : Int) (vp : Option Viewport)
    (v : Viewport) (e : Event) (s : Sys) :
    ((stepSys delay (some v) Event.settleEvent s).1.ctrl.action = none)
  ∧ (∀ a : Action, (stepSys delay vp e s).1.ctrl.action = some a →
      s.ctrl.action = some a
      ∨ (∃ now, e = Event.headFire now true ∧ a = Action.head
          ∧ delay ≤ now - s.lastHeadCall ∧ vp ≠ none)
      ∨ (∃ now, e = Event.tailFire now true ∧ a = Action.tail
          ∧ delay ≤ now - s.lastTailCall ∧ vp ≠ none)) := by
  constructor
  · cases hc : s.ctrl.action with
    | none => simp [stepSys, settle, hc]
    | some a0 => simp [stepSys, settle, hc, settleCore_clears]
  · intro a ha
    cases e with
    | headFire now hm =>
      by_cases hp : delay ≤ now - s.lastHeadCall
      · cases hm with
        | false => left; simpa [stepSys, hp] using ha
        | true =>
          cases hv : vp with
          | none =>
            left
            simpa [stepSys, hp, hv, saveScrollStates] using ha
          | some v' =>
            have ha' : Action.head = a := by
              simpa [stepSys, hp, hv, saveScrollStates_action_some] using ha
            right; left
            exact ⟨now, rfl, ha'.symm, hp, by simp [hv]⟩
      · left; simpa [stepSys, hp] using ha
    | tailFire now hm =>
      by_cases hp : delay ≤ now - s.lastTailCall
      · cases hm with
        | false => left; simpa [stepSys, hp] using ha
        | true =>
          cases hv : vp with
          | none =>
            left
            simpa [stepSys, hp, hv, saveScrollStates] using ha
          | some v' =>
            have ha' : Action.tail = a := by
              simpa [stepSys, hp, hv, saveScrollStates_action_some] using ha
            right; right
            exact ⟨now, rfl, ha'.symm, hp, by simp [hv]⟩
      · left; simpa [stepSys, hp] using ha
    | settleEvent =>
      cases hv : vp with
      | none => left; simpa [stepSys, hv, settle] using ha
      | some v' =>
        exfalso
        cases hc : s.ctrl.action with
        | none => simp [stepSys, hv, settle, hc] at ha
        | some a0 => simp [stepSys, hv, settle, hc, settleCore_clears] at ha

/-- Witness for C4: a concrete settlement with a pending head clears the
pending state. -/
theorem pending_at_most_one_witness :
    (stepSys 1000 (some ⟨1400, 300, 200, 0⟩) Event.settleEvent
      ⟨⟨"row", false, some Action.head, 1000, 0, 200, 0⟩, 0, 0⟩).1.ctrl.action
      = none :=
  (pending_at_most_one 1000 (some ⟨1400, 300, 200, 0⟩) ⟨1400, 300, 200, 0⟩
    Event.settleEvent
    ⟨⟨"row", false, some Action.head, 1000, 0, 200, 0⟩, 0, 0⟩).1

/-- C5: an edge-fire that passes the throttle gate while the corresponding
HasMore flag is false changes nothing except the gate's timestamp: the
controller state (pending action and recorded metrics) is untouched, no
onHead/onTail callback runs, and no scroll write is performed. -/
theorem fire_without_more (delay now : Int) (vp : Option Viewport)
    (s : Sys) :
    (delay ≤ now - s.lastHeadCall →
      stepSys delay vp (Event.headFire now false) s
        = (⟨s.ctrl, now, s.lastTailCall⟩, noOutput))
  ∧ (delay ≤ now - s.lastTailCall →
      stepSys delay vp (Event.tailFire now false) s
        = (⟨s.ctrl, s.lastHeadCall, now⟩, noOutput)) := by
  constructor <;> intro hp <;> simp [stepSys, hp]

/-- Witness for C5: a concrete head fire with `hasMoreAtHead = false`
passing the gate leaves everything but the gate timestamp unchanged. -/
theorem fire_without_more_witness :
    ((1000 : Int) ≤ 2000 -
      (⟨⟨"row", false, none, 0, 0, 0, 0⟩, 0, 0⟩ : Sys).lastHeadCall)
  ∧ stepSys 1000 (some ⟨1000, 300, 200, 0⟩) (Event.headFire 2000 false)
        ⟨⟨"row", false, none, 0, 0, 0, 0⟩, 0, 0⟩
      = (⟨⟨"row", false, none, 0, 0, 0, 0⟩, 2000, 0⟩, noOutput) :=
  ⟨by decide,
   (fire_without_more 1000 2000 (some ⟨1000, 300, 200, 0⟩)
     ⟨⟨"row", false, none, 0, 0, 0, 0⟩, 0, 0⟩).1 (by decide)⟩

/-- C6: the orientation is captured at construction; a later render with a
different direction prop keeps the memoised value, warns exactly when the
prop differs and `disableLog` is off, and both the settlement step and the
metric recording behave as if the new prop value did not exist. -/
theorem direction_fixed_after_init (direction : String) (s : ListState)
    (vp : Option Viewport) :
    (∀ dl : Bool, (initState direction dl).directionMemo = direction)
  ∧ ((renderUpdate direction s).1.directionMemo = s.directionMemo)
  ∧ ((renderUpdate direction s).2 = true ↔
      direction ≠ s.directionMemo ∧ s.disableLog = false)
  ∧ (settle vp (renderUpdate direction s).1 = settle vp s)
  ∧ (∀ a : Action, saveScrollStates a vp (renderUpdate direction s).1
      = saveScrollStates a vp s) := by
  refine ⟨fun _ => rfl, rfl, ?_, rfl, fun _ => rfl⟩
  simp [renderUpdate, Bool.and_eq_true, bne_iff_ne]

/-- Witness for C6: a render with direction `"column"` on a controller
built with `"row"` keeps the memoised `"row"`. -/
theorem direction_fixed_after_init_witness :
    (renderUpdate "column"
      ⟨"row", false, none, 0, 0, 0, 0⟩).1.directionMemo = "row" :=
  (direction_fixed_after_init "column" ⟨"row", false, none, 0, 0, 0, 0⟩
    none).2.1

/-- C10: a fire on either gate that passes with its HasMore flag false
still updates that gate's timestamp, so a later fire on the same gate
within the cooldown of it is suppressed outright, producing no callback
and no state change, even though the earlier fire itself produced no
pending action or callback; the head and tail gates behave alike. -/
theorem flag_false_fire_updates_throttle (delay t t2 : Int)
    (vp vp2 : Option Viewport) (hm2 : Bool) (s : Sys)
    (hwithin : t2 - t < delay) :
    (delay ≤ t - s.lastHeadCall →
      ((stepSys delay vp (Event.headFire t false) s).1
          = ⟨s.ctrl, t, s.lastTailCall⟩)
      ∧ ((stepSys delay vp (Event.headFire t false) s).2 = noOutput)
      ∧ (stepSys delay vp2 (Event.headFire t2 hm2)
            (stepSys delay vp (Event.headFire t false) s).1
          = ((stepSys delay vp (Event.headFire t false) s).1, noOutput)))
  ∧ (delay ≤ t - s.lastTailCall →
      ((stepSys delay vp (Event.tailFire t false) s).1
          = ⟨s.ctrl, s.lastHeadCall, t⟩)
      ∧ ((stepSys delay vp (Event.tailFire t false) s).2 = noOutput)
      ∧ (stepSys delay vp2 (Event.tailFire t2 hm2)
            (stepSys delay vp (Event.tailFire t false) s).1
          = ((stepSys delay vp (Event.tailFire t false) s).1, noOutput))) := by
  have hno : ¬ delay ≤ t2 - t := by omega
  constructor
  · intro hpass
    have h1 : stepSys delay vp (Event.headFire t false) s
        = (⟨s.ctrl, t, s.lastTailCall⟩, noOutput) := by
      simp [stepSys, hpass]
    refine ⟨by rw [h1], by rw [h1], ?_⟩
    rw [h1]
    simp [stepSys, hno]
  · intro hpass
    have h1 : stepSys delay vp (Event.tailFire t false) s
        = (⟨s.ctrl, s.lastHeadCall, t⟩, noOutput) := by
      simp [stepSys, hpass]
    refine ⟨by rw [h1], by rw [h1], ?_⟩
    rw [h1]
    simp [stepSys, hno]

/-- Witness for C10: cooldown 1000, a flag-false fire at 2000 followed by
a fire at 2400 on the same gate: the second fire is suppressed entirely,
on the head gate and on the tail gate alike. -/
theorem flag_false_fire_updates_throttle_witness :
    ((2400 : Int) - 2000 < 1000)
  ∧ ((1000 : Int) ≤ 2000 -
      (⟨⟨"row", false, none, 0, 0, 0, 0⟩, 0, 0⟩ : Sys).lastHeadCall)
  ∧ ((1000 : Int) ≤ 2000 -
      (⟨⟨"row", false, none, 0, 0, 0, 0⟩, 0, 0⟩ : Sys).lastTailCall)
  ∧ (stepSys 1000 none (Event.headFire 2400 true)
        (stepSys 1000 none (Event.headFire 2000 false)
          ⟨⟨"row", false, none, 0, 0, 0, 0⟩, 0, 0⟩).1
      = ((stepSys 1000 none (Event.headFire 2000 false)
          ⟨⟨"row", false, none, 0, 0, 0, 0⟩, 0, 0⟩).1, noOutput))
  ∧ (stepSys 1000 none (Event.tailFire 2400 true)
        (stepSys 1000 none (Event.tailFire 2000 false)
          ⟨⟨"row", false, none, 0, 0, 0, 0⟩, 0, 0⟩).1
      = ((stepSys 1000 none (Event.tailFire 2000 false)
          ⟨⟨"row", false, none, 0, 0, 0, 0⟩, 0, 0⟩).1, noOutput)) :=
  ⟨by decide, by decide, by decide,
   ((flag_false_fire_updates_throttle 1000 2000 2400 none none true
     ⟨⟨"row", false, none, 0, 0, 0, 0⟩, 0, 0⟩ (by decide)).1 (by decide)).2.2,
   ((flag_false_fire_updates_throttle 1000 2000 2400 none none true
     ⟨⟨"row", false, none, 0, 0, 0, 0⟩, 0, 0⟩ (by decide)).2 (by decide)).2.2⟩

theorem runThrottle_snoc (delay t : Int) :
    ∀ (ts : List Int) (lastCall : Int),
      runThrottle delay lastCall (ts ++ [t])
        = runThrottle delay lastCall ts
          ++ [decide (delay ≤ t - lastForwarded delay lastCall ts)] := by
  intro ts
  induction ts with
  | nil =>
    intro lastCall
    by_cases h : delay ≤ t - lastCall <;>
      simp [runThrottle, lastForwarded, h]
  | cons t0 ts ih =>
    intro lastCall
    by_cases h : delay ≤ t0 - lastCall <;>
      simp [runThrottle, lastForwarded, h, ih]

theorem lastForwarded_snoc (delay t : Int) :
    ∀ (ts : List Int) (lastCall : Int),
      lastForwarded delay lastCall (ts ++ [t])
        = if delay ≤ t - lastForwarded delay lastCall ts then t
          else lastForwarded delay lastCall ts := by
  intro ts
  induction ts with
  | nil =>
    intro lastCall
    by_cases h : delay ≤ t - lastCall <;>
      simp [runThrottle, lastForwarded, h]
  | cons t0 ts ih =>
    intro lastCall
    by_cases h : delay ≤ t0 - lastCall <;>
      simp [runThrottle, lastForwarded, h, ih]

/-- C2 counterexample: with cooldown 1000 and `lastCallRef` initialised to
0 as in the source, the (strictly increasing) attempt sequence `[500]` has
its first attempt suppressed, refuting "the first attempt in the sequence
is always forwarded". -/
theorem throttle_first_attempt_suppressed :
    runThrottle 1000 0 [500] = [false] := by decide

/-- C2 (amended): an attempt at `t` arriving after the attempts `ts` is
forwarded iff `t` minus the gate's reference timestamp — the timestamp of
the last forwarded attempt, or the initial value (0 in the source) when
none has been forwarded yet — is at least the cooldown; the reference
timestamp moves to `t` exactly when the attempt at `t` is forwarded, and
a lone first attempt is forwarded iff `t - lastCall ≥ delay`. -/
theorem throttle_gate_spec (delay lastCall t : Int) (ts : List Int) :
    (runThrottle delay lastCall (ts ++ [t])
      = runThrottle delay lastCall ts
        ++ [decide (delay ≤ t - lastForwarded delay lastCall ts)])
  ∧ (lastForwarded delay lastCall (ts ++ [t])
      = if delay ≤ t - lastForwarded delay lastCall ts then t
        else lastForwarded delay lastCall ts)
  ∧ (runThrottle delay lastCall [t] = [decide (delay ≤ t - lastCall)]) :=
  ⟨runThrottle_snoc delay t ts lastCall,
   lastForwarded_snoc delay t ts lastCall,
   by by_cases h : delay ≤ t - lastCall <;> simp [runThrottle, h]⟩

/-- C7 counterexample: a forwarded call whose callback returned
`undefined` and a suppressed call both return `undefined` to the caller,
so the suppressed result is not outside the callback's result type and
the two are indistinguishable (cooldown 1000, gate state 0: the attempt
at 2000 passes, the attempt at 100 does not). -/
theorem throttled_return_ambiguous :
    ((1000 : Int) ≤ 2000 - 0)
  ∧ ¬ ((1000 : Int) ≤ 100 - 0)
  ∧ throttledReturn 1000 2000 0 TSValue.undef = TSValue.undef
  ∧ throttledReturn 1000 100 0 TSValue.undef = TSValue.undef := by decide

/-- C7 (amended): a suppressed attempt returns `undefined`, the wrapper's
implicit return value, while a forwarded call returns the callback's
result; the caller can therefore distinguish suppression from a forwarded
call exactly for callbacks that never return `undefined`. -/
theorem throttled_return_suppressed (delay now lastCall : Int) (r : TSValue)
    (hsup : ¬ delay ≤ now - lastCall) :
    throttledReturn delay now lastCall r = TSValue.undef
  ∧ (∀ r2 : TSValue, r2 ≠ TSValue.undef →
      throttledReturn delay (lastCall + delay) lastCall r2
        ≠ TSValue.undef) := by
  constructor
  · simp [throttledReturn, hsup]
  · intro r2 hr2
    have hle : delay ≤ lastCall + delay - lastCall := by omega
    simpa [throttledReturn, hle] using hr2

/-- Witness for C7's amended statement: with cooldown 1000 and gate state
0, the attempt at 100 is suppressed and returns `undefined`, while a
forwarded call of a callback returning a proper value does not. -/
theorem throttled_return_suppressed_witness :
    (¬ ((1000 : Int) ≤ 100 - 0))
  ∧ throttledReturn 1000 100 0 (TSValue.value 7) = TSValue.undef
  ∧ throttledReturn 1000 (0 + 1000) 0 (TSValue.value 7)
      ≠ TSValue.undef :=
  ⟨by decide,
   (throttled_return_suppressed 1000 100 0 (TSValue.value 7) (by decide)).1,
   (throttled_return_suppressed 1000 100 0 (TSValue.value 7) (by decide)).2
     (TSValue.value 7) (by decide)⟩

/-- C8 counterexample: with the viewport torn down (`none`), a head fire
that passes the gate with `hasMoreAtHead = true` still invokes the
`onHead` callback, refuting "no callback or other observable effect
occurs". -/
theorem detached_fire_invokes_callback :
    (stepSys 1000 none (Event.headFire 2000 true)
      ⟨⟨"row", false, none, 0, 0, 0, 0⟩, 0, 0⟩).2.headCallback = true := by
  decide

/-- C8 (amended): after viewport teardown an edge-fire records no metrics
and enters no pending state, never performs a scroll write, and a
settlement is a complete no-op; however the onHead/onTail callback is
still invoked exactly when the throttle gate passes and the corresponding
HasMore flag is true. -/
theorem detached_viewport_behavior (delay now : Int) (hm : Bool)
    (s : Sys) :
    ((stepSys delay none (Event.headFire now hm) s).1.ctrl = s.ctrl)
  ∧ ((stepSys delay none (Event.headFire now hm) s).2.write = none)
  ∧ ((stepSys delay none (Event.tailFire now hm) s).1.ctrl = s.ctrl)
  ∧ ((stepSys delay none (Event.tailFire now hm) s).2.write = none)
  ∧ (stepSys delay none Event.settleEvent s = (s, noOutput))
  ∧ ((stepSys delay none (Event.headFire now hm) s).2.headCallback
      = (decide (delay ≤ now - s.lastHeadCall) && hm))
  ∧ ((stepSys delay none (Event.tailFire now hm) s).2.tailCallback
      = (decide (delay ≤ now - s.lastTailCall) && hm)) := by
  refine ⟨?_, ?_, ?_, ?_, ?_, ?_, ?_⟩
  · by_cases hp : delay ≤ now - s.lastHeadCall <;> cases hm <;>
      simp [stepSys, saveScrollStates, hp, noOutput]
  · by_cases hp : delay ≤ now - s.lastHeadCall <;> cases hm <;>
      simp [stepSys, saveScrollStates, hp, noOutput]
  · by_cases hp : delay ≤ now - s.lastTailCall <;> cases hm <;>
      simp [stepSys, saveScrollStates, hp, noOutput]
  · by_cases hp : delay ≤ now - s.lastTailCall <;> cases hm <;>
      simp [stepSys, saveScrollStates, hp, noOutput]
  · simp [stepSys, settle, noOutput]
  · by_cases hp : delay ≤ now - s.lastHeadCall <;> cases hm <;>
      simp [stepSys, saveScrollStates, hp, noOutput]
  · by_cases hp : delay ≤ now - s.lastTailCall <;> cases hm <;>
      simp [stepSys, saveScrollStates, hp, noOutput]

end BList
